import Mathlib

/-!
Shallow embedding of the Command Execution Engine of this repository
(`backend/terminal_manager.py`, class `TerminalManager`).

Pure string manipulation (command cleaning, `os.path.join`/`os.path.dirname`,
package extraction, output classification) is translated directly from the
Python source.  Effectful parts (subprocess execution, the docker existence
check) are abstracted as oracles carried in an `ExecEnv`; the engine's mutable
attributes (`working_directory`, histories, installed-package sets, running
process registry) become an explicit state threaded through the functions.
-/

namespace TerminalManager

/-! ## Python-style string primitives (over `List Char`) -/

/-- The single-quote character, used by `_prepare_docker_command` escaping. -/
def squote : Char := Char.ofNat 39

/-- Python `str.strip()` on a character list: drop leading/trailing whitespace. -/
def pyStripList (l : List Char) : List Char :=
  ((l.dropWhile Char.isWhitespace).reverse.dropWhile Char.isWhitespace).reverse

/-- Python `str.strip()`. -/
def pyStrip (s : String) : String := String.mk (pyStripList s.toList)

/-- Python `str.startswith`. -/
def pyStartsWith (s pre : String) : Bool := pre.toList.isPrefixOf s.toList

/-- Python `str.endswith`. -/
def pyEndsWith (s suf : String) : Bool := suf.toList.isSuffixOf s.toList

/-- Scan helper for substring containment: does `sub` occur in the list? -/
def containsSubAux (sub : List Char) : List Char → Bool
  | [] => sub.isEmpty
  | c :: rest => sub.isPrefixOf (c :: rest) || containsSubAux sub rest

/-- Python `sub in s` (substring containment). -/
def strContains (s sub : String) : Bool := containsSubAux sub.toList s.toList

/-- Word splitter used for `command.split()` (split on whitespace runs,
dropping empty words); `cur` accumulates the current word reversed. -/
def pyWordsAux (cur : List Char) : List Char → List String
  | [] => if cur.isEmpty then [] else [String.mk cur.reverse]
  | c :: rest =>
    if c.isWhitespace then
      if cur.isEmpty then pyWordsAux [] rest
      else String.mk cur.reverse :: pyWordsAux [] rest
    else pyWordsAux (c :: cur) rest

/-- Python `str.split()` with no argument. -/
def pyWords (s : String) : List String := pyWordsAux [] s.toList

/-- `command.replace("\\\n", " ")`: each backslash-newline pair becomes a space. -/
def removeLineContList : List Char → List Char
  | '\\' :: '\n' :: rest => ' ' :: removeLineContList rest
  | c :: rest => c :: removeLineContList rest
  | [] => []

/-- `re.sub(r'\s+', ' ', command)`: every maximal run of whitespace becomes a
single space; `inRun` records whether the previous character was whitespace. -/
def collapseWsAux : Bool → List Char → List Char
  | _, [] => []
  | inRun, c :: rest =>
    if c.isWhitespace then
      if inRun then collapseWsAux true rest
      else ' ' :: collapseWsAux true rest
    else c :: collapseWsAux false rest

/-- `TerminalManager._clean_command`: strip, remove line continuations,
collapse whitespace runs. -/
def cleanCommand (command : String) : String :=
  String.mk (collapseWsAux false (removeLineContList (pyStripList command.toList)))

/-! ## `os.path` model (posixpath semantics used by the source) -/

/-- `os.path.join(a, b)` for two arguments (posixpath). -/
def osPathJoin (a b : String) : String :=
  if pyStartsWith b "/" then b
  else if a = "" || pyEndsWith a "/" then a ++ b
  else a ++ "/" ++ b

/-- The prefix of `l` up to and including its last slash (posixpath
`p[:p.rfind(sep) + 1]`). -/
def takeThroughLastSlash (l : List Char) : List Char :=
  (l.reverse.dropWhile (fun c => !(c == '/'))).reverse

/-- Drop trailing slashes (`head.rstrip(sep)`). -/
def rstripSlashes (l : List Char) : List Char :=
  (l.reverse.dropWhile (fun c => c == '/')).reverse

/-- `os.path.dirname(p)` (posixpath): keep everything up to the last slash,
then strip trailing slashes unless the head is empty or all slashes. -/
def osPathDirname (p : String) : String :=
  if (takeThroughLastSlash p.toList).all (fun c => c == '/') then
    String.mk (takeThroughLastSlash p.toList)
  else String.mk (rstripSlashes (takeThroughLastSlash p.toList))

/-! ## Output Classifier (`_detect_error_in_output`) -/

/-- The fixed keyword list of `_detect_error_in_output`. -/
def errorKeywords : List String :=
  ["error:", "Error:", "ERROR:",
   "exception:", "Exception:", "EXCEPTION:",
   "failed:", "Failed:", "FAILED:",
   "command not found",
   "No such file or directory",
   "Permission denied",
   "fatal:",
   "Traceback (most recent call last)"]

/-- `TerminalManager._detect_error_in_output`: any keyword occurring as a
substring of the output flags it as an error. -/
def detectErrorInOutput (output : String) : Bool :=
  errorKeywords.any (fun k => strContains output k)

/-! ## Engine state and execution environment -/

/-- The mutable attributes of `TerminalManager` relevant to the façade. -/
structure EngineSt where
  workingDirectory : String
  commandHistory : List String
  outputHistory : List String
  pipInstalled : List String
  npmInstalled : List String
deriving Repr, DecidableEq

/-- State set up by `__init__`. -/
def initialState : EngineSt :=
  { workingDirectory := "/workspace"
    commandHistory := []
    outputHistory := []
    pipInstalled := []
    npmInstalled := [] }

/-- Oracles for the effectful parts: the docker `[ -d dir ]` existence check
(`"exists" in result`), process execution (`(returncode, combined output)` of a
spawned command), and the fresh process identifier generated from
time/hash. -/
structure ExecEnv where
  containerName : String
  dirExists : String → Bool
  run : String → Int × String
  freshPid : String

/-- The `(success, output)` pair returned by the façade, plus whether the main
command was handed to a spawned process (as opposed to being short-circuited). -/
structure ExecResult where
  success : Bool
  output : String
  spawnedCommand : Bool
deriving Repr, DecidableEq

/-- Escape single quotes for bash (`command.replace("'", "'\\''")`). -/
def escapeSQuoteList : List Char → List Char
  | [] => []
  | c :: rest =>
    if c == squote then squote :: '\\' :: squote :: squote :: escapeSQuoteList rest
    else c :: escapeSQuoteList rest

/-- `TerminalManager._prepare_docker_command`. -/
def prepareDockerCommand (containerName cwd command : String) : String :=
  "docker exec -w " ++ cwd ++ " " ++ containerName ++ " bash -c " ++
    String.mk [squote] ++ String.mk (escapeSQuoteList command.toList) ++ String.mk [squote]

/-- Success on the streaming path (`_execute_with_streaming`, line 578):
exit code zero and no error pattern in the output. -/
def streamingSuccess (returncode : Int) (output : String) : Bool :=
  (returncode == 0) && !detectErrorInOutput output

/-- Success on the non-streaming path (`execute_command`, line 230) and the
interactive path: only the output classifier, the exit code is ignored. -/
def nonStreamingSuccess (output : String) : Bool := !detectErrorInOutput output

/-! ## Directory-change handling (`_handle_cd_command`) -/

/-- `command[3:].strip()`: the target of a `cd` command. -/
def extractCdTarget (command : String) : String :=
  pyStrip (String.mk (command.toList.drop 3))

/-- `TerminalManager._handle_cd_command`: `..` pops a component via
`os.path.dirname`, an absolute target is committed unconditionally, a relative
target is joined and committed only if the docker existence check succeeds.
The handler appends nothing to the output history and never spawns the command
itself. -/
def handleCdCommand (env : ExecEnv) (s : EngineSt) (command : String) :
    ExecResult × EngineSt :=
  let target := extractCdTarget command
  if target = ".." then
    let nwd := osPathDirname s.workingDirectory
    ({ success := true, output := "Changed directory to " ++ nwd, spawnedCommand := false },
     { s with workingDirectory := nwd })
  else if pyStartsWith target "/" then
    ({ success := true, output := "Changed directory to " ++ target, spawnedCommand := false },
     { s with workingDirectory := target })
  else
    let newDir := osPathJoin s.workingDirectory target
    if env.dirExists newDir then
      ({ success := true, output := "Changed directory to " ++ newDir, spawnedCommand := false },
       { s with workingDirectory := newDir })
    else
      ({ success := false, output := "Directory not found: " ++ newDir, spawnedCommand := false },
       s)

/-! ## Package-install handling -/

/-- The package-extraction loop shared by `_handle_pip_install` and
`_handle_npm_install`: skip recognized command words; a token starting with
`-` is a flag, and the immediately following token is consumed as its value
when it does not itself start with `-`; everything else is a package. -/
def extractInstallPackages (skips : List String) : List String → List String
  | [] => []
  | x :: rest =>
    if skips.contains x then extractInstallPackages skips rest
    else if pyStartsWith x "-" then
      match rest with
      | [] => []
      | y :: rest2 =>
        if pyStartsWith y "-" then extractInstallPackages skips (y :: rest2)
        else extractInstallPackages skips rest2
    else x :: extractInstallPackages skips rest

/-- `TerminalManager._handle_pip_install`. -/
def handlePipInstall (env : ExecEnv) (s : EngineSt) (command : String) :
    ExecResult × EngineSt :=
  let parts := pyWords command
  if parts.contains "-r" then
    let ro := env.run (prepareDockerCommand env.containerName s.workingDirectory command)
    ({ success := streamingSuccess ro.1 ro.2, output := ro.2, spawnedCommand := true },
     { s with outputHistory := s.outputHistory ++ [ro.2] })
  else
    let packages := extractInstallPackages ["pip", "pip3", "install"] parts
    let newPackages := packages.filter (fun p => !(s.pipInstalled.contains p))
    if newPackages.isEmpty then
      ({ success := true,
         output := "All packages already installed: " ++ String.intercalate ", " packages,
         spawnedCommand := false }, s)
    else
      let installCmd := "pip install " ++ String.intercalate " " newPackages
      let ro := env.run (prepareDockerCommand env.containerName s.workingDirectory installCmd)
      let succ := streamingSuccess ro.1 ro.2
      ({ success := succ, output := ro.2, spawnedCommand := true },
       { s with
          outputHistory := s.outputHistory ++ [ro.2]
          pipInstalled := if succ then s.pipInstalled ++ newPackages else s.pipInstalled })

/-- `TerminalManager._handle_npm_install`. -/
def handleNpmInstall (env : ExecEnv) (s : EngineSt) (command : String) :
    ExecResult × EngineSt :=
  let parts := pyWords command
  let isYarn := strContains (parts.headD "") "yarn"
  let installKeyword := if isYarn then "add" else "install"
  let saveDevFlag := if isYarn then "--dev" else "--save-dev"
  let isGlobal := parts.contains "-g" || parts.contains "--global"
  let isDev := parts.contains "--save-dev" || parts.contains "-D" || parts.contains saveDevFlag
  if isGlobal then
    let ro := env.run (prepareDockerCommand env.containerName s.workingDirectory command)
    ({ success := streamingSuccess ro.1 ro.2, output := ro.2, spawnedCommand := true },
     { s with outputHistory := s.outputHistory ++ [ro.2] })
  else
    let packages := extractInstallPackages ["npm", "yarn", installKeyword, "add"] parts
    let newPackages := packages.filter (fun p => !(s.npmInstalled.contains p))
    if newPackages.isEmpty then
      ({ success := true,
         output := "All packages already installed: " ++ String.intercalate ", " packages,
         spawnedCommand := false }, s)
    else
      let installCmd :=
        if isYarn then
          "yarn add " ++ String.intercalate " " newPackages ++ (if isDev then " --dev" else "")
        else
          "npm install " ++ String.intercalate " " newPackages ++
            (if isDev then " --save-dev" else "")
      let ro := env.run (prepareDockerCommand env.containerName s.workingDirectory installCmd)
      let succ := streamingSuccess ro.1 ro.2
      ({ success := succ, output := ro.2, spawnedCommand := true },
       { s with
          outputHistory := s.outputHistory ++ [ro.2]
          npmInstalled := if succ then s.npmInstalled ++ newPackages else s.npmInstalled })

/-! ## The Execution Façade (`execute_command`) -/

/-- `if working_dir: self.working_directory = working_dir` (Python truthiness:
the empty string does not overwrite). -/
def applyWorkingDirOverride (s : EngineSt) : Option String → EngineSt
  | some w => if w = "" then s else { s with workingDirectory := w }
  | none => s

/-- The docker command built for the general (non-special-cased) path. -/
def generalDockerCommand (env : ExecEnv) (s : EngineSt) (command : String)
    (workingDir : Option String) : String :=
  prepareDockerCommand env.containerName
    (applyWorkingDirOverride s workingDir).workingDirectory (cleanCommand command)

/-- `TerminalManager.execute_command` on the paths that complete normally:
apply the working-directory override, append the command to history, clean the
command, special-case `cd` and package installs, and otherwise run the docker
command on the streaming or non-streaming path.  A background streaming call
returns immediately with a synthetic message and appends no output. -/
def executeCommand (env : ExecEnv) (s : EngineSt) (command : String)
    (streamOutput background : Bool) (workingDir : Option String) :
    ExecResult × EngineSt :=
  let s1 := applyWorkingDirOverride s workingDir
  let s2 := { s1 with commandHistory := s1.commandHistory ++ [command] }
  let cleaned := cleanCommand command
  if pyStartsWith cleaned "cd " then handleCdCommand env s2 cleaned
  else if pyStartsWith cleaned "pip install " || pyStartsWith cleaned "pip3 install " then
    handlePipInstall env s2 cleaned
  else if pyStartsWith cleaned "npm install " || pyStartsWith cleaned "yarn add " then
    handleNpmInstall env s2 cleaned
  else
    let dockerCommand := prepareDockerCommand env.containerName s2.workingDirectory cleaned
    if streamOutput then
      if background then
        ({ success := true, output := "Started background process " ++ env.freshPid,
           spawnedCommand := true }, s2)
      else
        let ro := env.run dockerCommand
        ({ success := streamingSuccess ro.1 ro.2, output := ro.2, spawnedCommand := true },
         { s2 with outputHistory := s2.outputHistory ++ [ro.2] })
    else
      let ro := env.run dockerCommand
      ({ success := nonStreamingSuccess ro.2, output := ro.2, spawnedCommand := true },
       { s2 with outputHistory := s2.outputHistory ++ [ro.2] })

/-- The literal two characters backslash-`n` used by
`execute_interactive_command` (`"\\n".join(inputs)` in the source operates on
an escaped backslash, not a newline). -/
def bslashN : String := String.mk ['\\', 'n']

/-- `TerminalManager.execute_interactive_command` on the normal path: override
the working directory, append the command, pipe the prepared input string into
docker, append the combined output, and classify it (ignoring the exit code). -/
def executeInteractiveCommand (env : ExecEnv) (s : EngineSt) (command : String)
    (inputs : List String) (workingDir : Option String) : ExecResult × EngineSt :=
  let s1 := applyWorkingDirOverride s workingDir
  let s2 := { s1 with commandHistory := s1.commandHistory ++ [command] }
  let inputString :=
    if inputs.isEmpty then "" else String.intercalate bslashN inputs ++ bslashN
  let dockerCommand :=
    "echo -e " ++ String.mk [squote] ++ inputString ++ String.mk [squote] ++
      " | docker exec -i -w " ++ s1.workingDirectory ++ " " ++ env.containerName ++
      " bash -c " ++ String.mk [squote] ++ command ++ String.mk [squote]
  let out := (env.run dockerCommand).2
  ({ success := nonStreamingSuccess out, output := out, spawnedCommand := true },
   { s2 with outputHistory := s2.outputHistory ++ [out] })

/-! ## Engine operation sequences -/

/-- One public engine operation (the calls that touch the shared state). -/
inductive EngineOp where
  | exec (command : String) (streamOutput background : Bool) (workingDir : Option String)
  | interact (command : String) (inputs : List String) (workingDir : Option String)

/-- The state transition of one operation. -/
def engineStep (env : ExecEnv) (s : EngineSt) : EngineOp → EngineSt
  | .exec c so bg ov => (executeCommand env s c so bg ov).2
  | .interact c ins ov => (executeInteractiveCommand env s c ins ov).2

/-- Run a sequence of engine operations. -/
def runOps (env : ExecEnv) (s : EngineSt) (ops : List EngineOp) : EngineSt :=
  ops.foldl (engineStep env) s

/-- A non-empty absolute path string (the spec's working-directory invariant). -/
def absolutePath (wd : String) : Prop := wd ≠ "" ∧ pyStartsWith wd "/" = true

/-- A `working_dir` override that is either absent, empty (ignored by Python
truthiness) or a non-empty absolute path. -/
def overrideOk : Option String → Prop
  | none => True
  | some w => w = "" ∨ absolutePath w

/-- Constraint on one operation: its override is well-formed. -/
def opOk : EngineOp → Prop
  | .exec _ _ _ ov => overrideOk ov
  | .interact _ _ ov => overrideOk ov

/-! ## Background process registry and timeout handling
(`_execute_with_streaming`, `_monitor_background_process`) -/

/-- One entry of `running_processes`. -/
structure ProcRecord where
  command : String
  background : Bool
  timeLimit : Nat
  outputChunks : List String
deriving Repr, DecidableEq

/-- The registry `running_processes`, a map from process id to record. -/
abbrev Registry := List (String × ProcRecord)

/-- Dictionary lookup `running_processes[pid]`. -/
def lookupProc (reg : Registry) (pid : String) : Option ProcRecord :=
  (reg.find? (fun e => e.1 == pid)).map Prod.snd

/-- Dictionary deletion `del running_processes[pid]`. -/
def removeProc (reg : Registry) (pid : String) : Registry :=
  reg.filter (fun e => !(e.1 == pid))

/-- Dictionary assignment `running_processes[pid] = record`. -/
def registerProc (reg : Registry) (pid : String) (r : ProcRecord) : Registry :=
  (pid, r) :: removeProc reg pid

/-- The background branch of `_execute_with_streaming` (lines 548-561): the
record is registered, a monitor task is spawned, and the call returns at once
with `success=True` and a message naming the process id. -/
def startBackgroundProcess (reg : Registry) (pid dockerCommand : String)
    (timeLimit : Nat) : (Bool × String) × Registry :=
  let reg2 := registerProc reg pid
    { command := dockerCommand, background := true, timeLimit := timeLimit, outputChunks := [] }
  ((true, "Started background process " ++ pid), reg2)

/-- The terminal outcomes of `_monitor_background_process`. -/
inductive MonitorOutcome where
  | completed
  | timedOut
  | errored
deriving Repr, DecidableEq

/-- The broadcast event emitted for each terminal outcome. -/
def monitorEvent : MonitorOutcome → String
  | .completed => "background_complete"
  | .timedOut => "background_timeout"
  | .errored => "background_error"

/-- `_monitor_background_process`: early return if the id is unknown,
otherwise the `finally` block removes the record on every terminal outcome. -/
def monitorBackgroundProcess (reg : Registry) (pid : String)
    (outcome : MonitorOutcome) : String × Registry :=
  match lookupProc reg pid with
  | none => ("", reg)
  | some _ => (monitorEvent outcome, removeProc reg pid)

/-- The process-control actions of the foreground timeout handler
(`_execute_with_streaming`, lines 589-595): `process.terminate()` followed by
an unbounded `await process.wait()`.  There is no `process.kill()` fallback. -/
inductive ProcAction where
  | terminate
  | waitForExit
  | kill
deriving Repr, DecidableEq

/-- The action sequence the timeout handler performs on the child process. -/
def timeoutTerminationActions : List ProcAction :=
  [ProcAction.terminate, ProcAction.waitForExit]

/-- The timeout branch of the foreground streaming path (lines 589-617):
assemble the captured chunks of the registry record (empty if the record is
gone), delete the record, and return `success=False` with the timeout
annotation prepended to the captured output. -/
def handleForegroundTimeout (reg : Registry) (pid : String) (timeLimit : Nat) :
    (Bool × String) × Registry :=
  match lookupProc reg pid with
  | some r =>
    ((false, "Command timed out after " ++ toString timeLimit ++ " seconds\n" ++
        String.join r.outputChunks),
     removeProc reg pid)
  | none =>
    ((false, "Command timed out after " ++ toString timeLimit ++ " seconds\n"), reg)

/-- The package list `_handle_pip_install` extracts from a command. -/
def pipPackagesOf (cmd : String) : List String :=
  extractInstallPackages ["pip", "pip3", "install"] (pyWords cmd)

/-- The package list `_handle_npm_install` extracts from a command. -/
def npmPackagesOf (cmd : String) : List String :=
  extractInstallPackages
    ["npm", "yarn",
     if strContains ((pyWords cmd).headD "") "yarn" then "add" else "install", "add"]
    (pyWords cmd)

/-! ## Concrete environments used in counterexamples and witnesses -/

/-- Environment in which every process exits with code 1 and clean output. -/
def envExitOne : ExecEnv :=
  { containerName := "ai_agent_terminal"
    dirExists := fun _ => false
    run := fun _ => (1, "all good")
    freshPid := "process_1700000000_1234" }

/-- Environment in which no directory exists and every process succeeds. -/
def envNoDirs : ExecEnv :=
  { containerName := "ai_agent_terminal"
    dirExists := fun _ => false
    run := fun _ => (0, "ok")
    freshPid := "process_1700000000_1234" }

/-- Environment in which every directory exists and every process succeeds. -/
def envAllDirs : ExecEnv :=
  { containerName := "ai_agent_terminal"
    dirExists := fun _ => true
    run := fun _ => (0, "ok")
    freshPid := "process_1700000000_1234" }

/-! ## Generic list and string lemmas -/

theorem isPrefixOfEqTrue {l₁ l₂ : List Char} : l₁.isPrefixOf l₂ = true ↔ l₁ <+: l₂ :=
  List.isPrefixOf_iff_prefix

theorem isSuffixOfEqTrue {l₁ l₂ : List Char} : l₁.isSuffixOf l₂ = true ↔ l₁ <:+ l₂ :=
  List.isSuffixOf_iff_suffix

theorem reverseSuffixIff {l₁ l₂ : List Char} : l₁.reverse <:+ l₂.reverse ↔ l₁ <+: l₂ :=
  List.reverse_suffix

theorem strToListAppend (a b : String) : (a ++ b).toList = a.toList ++ b.toList := rfl

theorem strMkToList (s : String) : String.mk s.toList = s := rfl

theorem dropWhileAppendAll {p : Char → Bool} {l₁ : List Char} (l₂ : List Char)
    (h : ∀ a ∈ l₁, p a = true) : (l₁ ++ l₂).dropWhile p = l₂.dropWhile p := by
  induction l₁ with
  | nil => rfl
  | cons a t ih =>
    have ha := h a (List.mem_cons_self a t)
    simp only [List.cons_append, List.dropWhile_cons, ha, if_true]
    exact ih (fun x hx => h x (List.mem_cons_of_mem _ hx))

theorem containsSubAuxAppend (a b : List Char) : containsSubAux b (a ++ b) = true := by
  induction a with
  | nil =>
    cases b with
    | nil => rfl
    | cons d r =>
      have : (d :: r).isPrefixOf (d :: r) = true :=
        isPrefixOfEqTrue.mpr ⟨[], List.append_nil _⟩
      simp [containsSubAux, this]
  | cons c t ih => simp [containsSubAux, ih]

theorem strContainsAppendSelf (a b : String) : strContains (a ++ b) b = true := by
  unfold strContains
  rw [strToListAppend]
  exact containsSubAuxAppend _ _

/-- The reverse-dropWhile-reverse combination (used by both
`takeThroughLastSlash` and `rstripSlashes`) yields a prefix of the input. -/
theorem revDropRevIsPre (p : Char → Bool) (l : List Char) :
    (l.reverse.dropWhile p).reverse <+: l := by
  have h1 : ((l.reverse.dropWhile p).reverse).reverse <:+ l.reverse := by
    rw [List.reverse_reverse]
    exact List.dropWhile_suffix p
  exact reverseSuffixIff.mp h1

/-- If some element of `l` falsifies `p`, reverse-dropWhile-reverse is nonempty. -/
theorem revDropRevNeNil (p : Char → Bool) (l : List Char) (c : Char)
    (hc : c ∈ l) (hpc : p c = false) : (l.reverse.dropWhile p).reverse ≠ [] := by
  intro h
  rw [List.reverse_eq_nil_iff] at h
  have := List.dropWhile_eq_nil_iff.mp h c (List.mem_reverse.mpr hc)
  rw [hpc] at this
  exact Bool.false_ne_true this

theorem preOfSlashCons {X t : List Char} (hne : X ≠ []) (hpre : X <+: '/' :: t) :
    ∃ X2, X = '/' :: X2 := by
  obtain ⟨u, hu⟩ := hpre
  cases X with
  | nil => exact absurd rfl hne
  | cons a X2 =>
    rw [List.cons_append] at hu
    injection hu with h1 _
    exact ⟨X2, by rw [h1]⟩

/-! ## Absolute-path lemmas -/

theorem absolutePathIff (s : String) : absolutePath s ↔ ∃ t, s.toList = '/' :: t := by
  have hslash : ("/" : String).toList = ['/'] := rfl
  constructor
  · rintro ⟨_, hsw⟩
    unfold pyStartsWith at hsw
    rw [hslash] at hsw
    obtain ⟨u, hu⟩ := isPrefixOfEqTrue.mp hsw
    exact ⟨u, hu.symm⟩
  · rintro ⟨t, ht⟩
    refine ⟨?_, ?_⟩
    · intro h
      rw [h] at ht
      exact List.cons_ne_nil _ _ ht.symm
    · unfold pyStartsWith
      rw [hslash]
      exact isPrefixOfEqTrue.mpr ⟨t, ht.symm⟩

theorem absolutePathOfSlash {s : String} (h : pyStartsWith s "/" = true) :
    absolutePath s := by
  unfold pyStartsWith at h
  have hslash : ("/" : String).toList = ['/'] := rfl
  rw [hslash] at h
  obtain ⟨u, hu⟩ := isPrefixOfEqTrue.mp h
  exact (absolutePathIff s).mpr ⟨u, hu.symm⟩

theorem absolutePath_osPathDirname {p : String} (hp : absolutePath p) :
    absolutePath (osPathDirname p) := by
  obtain ⟨t, ht⟩ := (absolutePathIff p).mp hp
  unfold osPathDirname takeThroughLastSlash
  have hslash : '/' ∈ p.toList := by rw [ht]; exact List.mem_cons_self _ _
  have hne : (p.toList.reverse.dropWhile (fun c => !(c == '/'))).reverse ≠ [] :=
    revDropRevNeNil _ _ '/' hslash (by simp)
  have hpre : (p.toList.reverse.dropWhile (fun c => !(c == '/'))).reverse <+: p.toList :=
    revDropRevIsPre _ _
  have hpre2 : (p.toList.reverse.dropWhile (fun c => !(c == '/'))).reverse <+: '/' :: t := by
    rw [← ht]; exact hpre
  obtain ⟨h2, hh2⟩ := preOfSlashCons hne hpre2
  by_cases hall :
      ((p.toList.reverse.dropWhile (fun c => !(c == '/'))).reverse.all (fun c => c == '/')) = true
  · simp only [hall, if_true]
    refine (absolutePathIff _).mpr ⟨h2, ?_⟩
    show (p.toList.reverse.dropWhile (fun c => !(c == '/'))).reverse = '/' :: h2
    exact hh2
  · have hex : ∃ c ∈ (p.toList.reverse.dropWhile (fun c => !(c == '/'))).reverse,
        ¬((c == '/') = true) := by
      by_contra hcon
      push_neg at hcon
      exact hall (List.all_eq_true.mpr hcon)
    obtain ⟨c, hcmem, hc⟩ := hex
    have hrne : (rstripSlashes
        ((p.toList.reverse.dropWhile (fun c => !(c == '/'))).reverse)) ≠ [] :=
      revDropRevNeNil _ _ c hcmem (Bool.eq_false_iff.mpr hc)
    have hrpre : (rstripSlashes
        ((p.toList.reverse.dropWhile (fun c => !(c == '/'))).reverse)) <+:
        (p.toList.reverse.dropWhile (fun c => !(c == '/'))).reverse :=
      revDropRevIsPre _ _
    obtain ⟨r2, hr2⟩ := preOfSlashCons hrne (hrpre.trans hpre2)
    rw [Bool.not_eq_true] at hall
    simp only [hall, Bool.false_eq_true, if_false]
    refine (absolutePathIff _).mpr ⟨r2, ?_⟩
    show rstripSlashes ((p.toList.reverse.dropWhile (fun c => !(c == '/'))).reverse) = '/' :: r2
    exact hr2

theorem absolutePath_osPathJoin {a : String} (b : String) (ha : absolutePath a) :
    absolutePath (osPathJoin a b) := by
  obtain ⟨t, ht⟩ := (absolutePathIff a).mp ha
  unfold osPathJoin
  by_cases h1 : pyStartsWith b "/" = true
  · simp only [h1, if_true]
    exact absolutePathOfSlash h1
  · rw [Bool.not_eq_true] at h1
    simp only [h1, Bool.false_eq_true, if_false]
    by_cases h2 : (a = "" || pyEndsWith a "/") = true
    · simp only [h2, if_true]
      exact (absolutePathIff _).mpr ⟨t ++ b.toList, by rw [strToListAppend, ht]; rfl⟩
    · rw [Bool.not_eq_true] at h2
      simp only [h2, Bool.false_eq_true, if_false]
      refine (absolutePathIff _).mpr ⟨t ++ ("/" : String).toList ++ b.toList, ?_⟩
      rw [strToListAppend, strToListAppend, ht]
      rfl

theorem reversePreIff {l₁ l₂ : List Char} : l₁.reverse <+: l₂.reverse ↔ l₁ <:+ l₂ :=
  List.reverse_prefix

theorem notMemOfContainsFalse {l : List Char} {c : Char} (h : l.contains c = false) :
    c ∉ l := by
  intro hmem
  have h2 : l.elem c = false := h
  rw [List.elem_eq_mem] at h2
  exact of_decide_eq_false h2 hmem

theorem qTrueOfNoSlash {tL : List Char} (h : '/' ∉ tL) :
    ∀ x ∈ tL.reverse, (fun c => !(c == '/')) x = true := by
  intro x hx
  have hxm : x ∈ tL := List.mem_reverse.mp hx
  have hne : ¬(x = '/') := fun he => h (he ▸ hxm)
  simp [hne]

theorem notStartsSlashOfNoSlash {t : String} (h : '/' ∉ t.toList) :
    pyStartsWith t "/" = false := by
  rw [Bool.eq_false_iff]
  intro hc
  obtain ⟨u, hu⟩ := (absolutePathIff t).mp (absolutePathOfSlash hc)
  exact h (by rw [hu]; exact List.mem_cons_self _ _)

/-- The key round-trip fact: appending a slash-free component with
`os.path.join` and then taking `os.path.dirname` restores the original string,
provided it does not end in a slash (or is the root `/`). -/
theorem osPathDirnameJoin (wd t : String) (hns : t.toList.contains '/' = false)
    (hwd : pyEndsWith wd "/" = false ∨ wd = "/") :
    osPathDirname (osPathJoin wd t) = wd := by
  have hnotmem : '/' ∉ t.toList := notMemOfContainsFalse hns
  have hts : pyStartsWith t "/" = false := notStartsSlashOfNoSlash hnotmem
  rcases hwd with hend | hroot
  · by_cases hempty : wd = ""
    · subst hempty
      have h1 : osPathJoin "" t = "" ++ t := by
        unfold osPathJoin
        rw [hts]
        simp
      rw [h1]
      have hl : ("" ++ t).toList = t.toList := by
        rw [strToListAppend]
        exact List.nil_append _
      unfold osPathDirname takeThroughLastSlash
      rw [hl, List.dropWhile_eq_nil_iff.mpr (qTrueOfNoSlash hnotmem)]
      rfl
    · have h1 : osPathJoin wd t = wd ++ "/" ++ t := by
        unfold osPathJoin
        rw [hts]
        simp [hempty, hend]
      rw [h1]
      obtain ⟨lc, w2, hrev⟩ : ∃ lc w2, wd.toList.reverse = lc :: w2 := by
        cases hr : wd.toList.reverse with
        | nil =>
          rw [List.reverse_eq_nil_iff] at hr
          exact absurd (by rw [← strMkToList wd, hr]) hempty
        | cons a b => exact ⟨a, b, rfl⟩
      have hlc : ¬(lc = '/') := by
        intro he
        unfold pyEndsWith at hend
        rw [Bool.eq_false_iff] at hend
        apply hend
        apply isSuffixOfEqTrue.mpr
        apply reversePreIff.mp
        rw [hrev, he]
        exact ⟨w2, rfl⟩
      have hl : (wd ++ "/" ++ t).toList = (wd.toList ++ ['/']) ++ t.toList := by
        rw [strToListAppend, strToListAppend]
        rfl
      unfold osPathDirname takeThroughLastSlash
      rw [hl, List.reverse_append, List.reverse_append]
      have hr1 : (['/'] : List Char).reverse = ['/'] := rfl
      rw [hr1, hrev]
      rw [show (['/'] ++ lc :: w2 : List Char) = '/' :: lc :: w2 from rfl]
      rw [dropWhileAppendAll _ (qTrueOfNoSlash hnotmem)]
      have hdq : List.dropWhile (fun c => !(c == '/')) ('/' :: lc :: w2) = '/' :: lc :: w2 := by
        rw [List.dropWhile_cons]
        simp
      rw [hdq]
      have hall : (('/' :: lc :: w2).reverse.all (fun c => c == '/')) = false := by
        rw [Bool.eq_false_iff]
        intro hat
        have hmem : lc ∈ ('/' :: lc :: w2).reverse := by simp
        exact hlc (eq_of_beq (List.all_eq_true.mp hat lc hmem))
      rw [hall]
      simp only [Bool.false_eq_true, if_false]
      unfold rstripSlashes
      rw [List.reverse_reverse]
      have hd2 : List.dropWhile (fun c => c == '/') ('/' :: lc :: w2) = lc :: w2 := by
        rw [List.dropWhile_cons]
        simp only [beq_self_eq_true, if_true]
        rw [List.dropWhile_cons]
        simp [hlc]
      rw [hd2, ← hrev, List.reverse_reverse]
      exact strMkToList wd
  · subst hroot
    have h1 : osPathJoin "/" t = "/" ++ t := by
      unfold osPathJoin
      rw [hts]
      have he : pyEndsWith "/" "/" = true := by decide
      simp [he]
    rw [h1]
    have hl : ("/" ++ t).toList = '/' :: t.toList := rfl
    unfold osPathDirname takeThroughLastSlash
    rw [hl, List.reverse_cons, dropWhileAppendAll _ (qTrueOfNoSlash hnotmem)]
    rfl

/-! ## Handler state lemmas -/

theorem handleCdCommand_histories (env : ExecEnv) (s : EngineSt) (c : String) :
    (handleCdCommand env s c).2.commandHistory = s.commandHistory
    ∧ (handleCdCommand env s c).2.outputHistory = s.outputHistory := by
  simp only [handleCdCommand]
  repeat' split
  all_goals exact ⟨rfl, rfl⟩

theorem handleCdCommand_wd (env : ExecEnv) (s : EngineSt) (c : String)
    (hs : absolutePath s.workingDirectory) :
    absolutePath (handleCdCommand env s c).2.workingDirectory := by
  simp only [handleCdCommand]
  split
  · exact absolutePath_osPathDirname hs
  · split
    next hcond => exact absolutePathOfSlash hcond
    next =>
      split
      · exact absolutePath_osPathJoin _ hs
      · exact hs

theorem handlePipInstall_wd (env : ExecEnv) (s : EngineSt) (c : String) :
    (handlePipInstall env s c).2.workingDirectory = s.workingDirectory := by
  simp only [handlePipInstall]
  repeat' split
  all_goals rfl

theorem handlePipInstall_cmdHist (env : ExecEnv) (s : EngineSt) (c : String) :
    (handlePipInstall env s c).2.commandHistory = s.commandHistory := by
  simp only [handlePipInstall]
  repeat' split
  all_goals rfl

theorem handlePipInstall_outHist (env : ExecEnv) (s : EngineSt) (c : String) :
    s.outputHistory <+: (handlePipInstall env s c).2.outputHistory := by
  simp only [handlePipInstall]
  repeat' split
  all_goals first
    | exact ⟨_, rfl⟩
    | exact ⟨[], List.append_nil _⟩

theorem handleNpmInstall_wd (env : ExecEnv) (s : EngineSt) (c : String) :
    (handleNpmInstall env s c).2.workingDirectory = s.workingDirectory := by
  simp only [handleNpmInstall]
  repeat' split
  all_goals rfl

theorem handleNpmInstall_cmdHist (env : ExecEnv) (s : EngineSt) (c : String) :
    (handleNpmInstall env s c).2.commandHistory = s.commandHistory := by
  simp only [handleNpmInstall]
  repeat' split
  all_goals rfl

theorem handleNpmInstall_outHist (env : ExecEnv) (s : EngineSt) (c : String) :
    s.outputHistory <+: (handleNpmInstall env s c).2.outputHistory := by
  simp only [handleNpmInstall]
  repeat' split
  all_goals first
    | exact ⟨_, rfl⟩
    | exact ⟨[], List.append_nil _⟩

theorem applyOverride_cmdHist (s : EngineSt) (ov : Option String) :
    (applyWorkingDirOverride s ov).commandHistory = s.commandHistory := by
  cases ov with
  | none => rfl
  | some w =>
    simp only [applyWorkingDirOverride]
    split
    · rfl
    · rfl

theorem applyOverride_outHist (s : EngineSt) (ov : Option String) :
    (applyWorkingDirOverride s ov).outputHistory = s.outputHistory := by
  cases ov with
  | none => rfl
  | some w =>
    simp only [applyWorkingDirOverride]
    split
    · rfl
    · rfl

theorem applyOverride_wd (s : EngineSt) (ov : Option String)
    (hs : absolutePath s.workingDirectory) (hov : overrideOk ov) :
    absolutePath (applyWorkingDirOverride s ov).workingDirectory := by
  cases ov with
  | none => exact hs
  | some w =>
    simp only [applyWorkingDirOverride]
    split
    · exact hs
    next hne =>
      rcases hov with he | habs
      · exact absurd he hne
      · exact habs

/-! ## Execution-façade state lemmas -/

theorem executeCommand_wd_abs (env : ExecEnv) (s : EngineSt) (cmd : String)
    (so bg : Bool) (ov : Option String)
    (hs : absolutePath s.workingDirectory) (hov : overrideOk ov) :
    absolutePath (executeCommand env s cmd so bg ov).2.workingDirectory := by
  have hs1 : absolutePath (applyWorkingDirOverride s ov).workingDirectory :=
    applyOverride_wd s ov hs hov
  simp only [executeCommand]
  split
  · exact handleCdCommand_wd _ _ _ hs1
  · split
    · rw [handlePipInstall_wd]
      exact hs1
    · split
      · rw [handleNpmInstall_wd]
        exact hs1
      · split
        · split
          · exact hs1
          · exact hs1
        · exact hs1

theorem executeCommand_wd_eq (env : ExecEnv) (s : EngineSt) (cmd : String) (so bg : Bool)
    (hcd : pyStartsWith (cleanCommand cmd) "cd " = false) :
    (executeCommand env s cmd so bg none).2.workingDirectory = s.workingDirectory := by
  simp only [executeCommand, applyWorkingDirOverride, hcd, Bool.false_eq_true, if_false]
  split
  · rw [handlePipInstall_wd]
  · split
    · rw [handleNpmInstall_wd]
    · split
      · split
        · rfl
        · rfl
      · rfl

theorem executeCommand_cmdHist (env : ExecEnv) (s : EngineSt) (cmd : String)
    (so bg : Bool) (ov : Option String) :
    (executeCommand env s cmd so bg ov).2.commandHistory = s.commandHistory ++ [cmd] := by
  simp only [executeCommand]
  split
  · rw [(handleCdCommand_histories _ _ _).1]
    exact congrArg (· ++ [cmd]) (applyOverride_cmdHist s ov)
  · split
    · rw [handlePipInstall_cmdHist]
      exact congrArg (· ++ [cmd]) (applyOverride_cmdHist s ov)
    · split
      · rw [handleNpmInstall_cmdHist]
        exact congrArg (· ++ [cmd]) (applyOverride_cmdHist s ov)
      · have hbase : ∀ x : EngineSt, x.commandHistory =
            (applyWorkingDirOverride s ov).commandHistory → x.commandHistory =
            s.commandHistory := fun x hx => hx.trans (applyOverride_cmdHist s ov)
        split
        · split
          · exact congrArg (· ++ [cmd]) (applyOverride_cmdHist s ov)
          · exact congrArg (· ++ [cmd]) (applyOverride_cmdHist s ov)
        · exact congrArg (· ++ [cmd]) (applyOverride_cmdHist s ov)

theorem executeCommand_outHist (env : ExecEnv) (s : EngineSt) (cmd : String)
    (so bg : Bool) (ov : Option String) :
    s.outputHistory <+: (executeCommand env s cmd so bg ov).2.outputHistory := by
  have hbase : (applyWorkingDirOverride s ov).outputHistory = s.outputHistory :=
    applyOverride_outHist s ov
  simp only [executeCommand]
  split
  · rw [(handleCdCommand_histories _ _ _).2]
    rw [show ({ applyWorkingDirOverride s ov with
        commandHistory := (applyWorkingDirOverride s ov).commandHistory ++ [cmd] } :
        EngineSt).outputHistory = s.outputHistory from hbase]
  · split
    · have h := handlePipInstall_outHist env
        { applyWorkingDirOverride s ov with
          commandHistory := (applyWorkingDirOverride s ov).commandHistory ++ [cmd] }
        (cleanCommand cmd)
      rw [show ({ applyWorkingDirOverride s ov with
          commandHistory := (applyWorkingDirOverride s ov).commandHistory ++ [cmd] } :
          EngineSt).outputHistory = s.outputHistory from hbase] at h
      exact h
    · split
      · have h := handleNpmInstall_outHist env
          { applyWorkingDirOverride s ov with
            commandHistory := (applyWorkingDirOverride s ov).commandHistory ++ [cmd] }
          (cleanCommand cmd)
        rw [show ({ applyWorkingDirOverride s ov with
            commandHistory := (applyWorkingDirOverride s ov).commandHistory ++ [cmd] } :
            EngineSt).outputHistory = s.outputHistory from hbase] at h
        exact h
      · split
        · split
          · exact hbase ▸ ⟨[], List.append_nil _⟩
          · exact hbase ▸ ⟨_, rfl⟩
        · exact hbase ▸ ⟨_, rfl⟩

theorem engineStep_wd_abs (env : ExecEnv) (s : EngineSt) (op : EngineOp)
    (hs : absolutePath s.workingDirectory) (hop : opOk op) :
    absolutePath (engineStep env s op).workingDirectory := by
  cases op with
  | exec c so bg ov => exact executeCommand_wd_abs env s c so bg ov hs hop
  | interact c ins ov =>
    simp only [engineStep, executeInteractiveCommand]
    exact applyOverride_wd s ov hs hop

theorem runOps_wd_abs (env : ExecEnv) (ops : List EngineOp) :
    ∀ s : EngineSt, absolutePath s.workingDirectory → (∀ op ∈ ops, opOk op) →
    absolutePath (runOps env s ops).workingDirectory := by
  induction ops with
  | nil => intro s hs _; exact hs
  | cons op rest ih =>
    intro s hs hops
    show absolutePath (List.foldl (engineStep env) s (op :: rest)).workingDirectory
    rw [List.foldl_cons]
    exact ih (engineStep env s op)
      (engineStep_wd_abs env s op hs (hops op (List.mem_cons_self _ _)))
      (fun o ho => hops o (List.mem_cons_of_mem _ ho))

/-! ## Registry lemmas -/

theorem lookupProc_removeProc (reg : Registry) (pid : String) :
    lookupProc (removeProc reg pid) pid = none := by
  induction reg with
  | nil => rfl
  | cons e rest ih =>
    show lookupProc (List.filter (fun x => !(x.1 == pid)) (e :: rest)) pid = none
    rw [List.filter_cons]
    cases hb : (e.1 == pid) with
    | true =>
      simp only [hb, Bool.not_true, Bool.false_eq_true, if_false]
      exact ih
    | false =>
      simp only [hb, Bool.not_false, if_true]
      show lookupProc (e :: List.filter (fun x => !(x.1 == pid)) rest) pid = none
      have hstep : List.find? (fun x => x.1 == pid)
          (e :: List.filter (fun x => !(x.1 == pid)) rest) =
          List.find? (fun x => x.1 == pid) (List.filter (fun x => !(x.1 == pid)) rest) :=
        List.find?_cons_of_neg _ (by simp [hb])
      unfold lookupProc
      rw [hstep]
      exact ih

/-! ## Package-set lemmas -/

theorem containsEqTrueIffMem {l : List String} {a : String} :
    l.contains a = true ↔ a ∈ l := by
  show l.elem a = true ↔ a ∈ l
  exact List.elem_iff

theorem filterContainsAppend (packages installed : List String) :
    packages.filter (fun p =>
      !((installed ++ packages.filter (fun q => !(installed.contains q))).contains p)) = [] := by
  rw [List.filter_eq_nil_iff]
  intro p hp hcon
  have hfalse : (installed ++ packages.filter (fun q => !(installed.contains q))).contains p
      = false := by
    cases hx : (installed ++ packages.filter (fun q => !(installed.contains q))).contains p with
    | false => rfl
    | true =>
      rw [hx] at hcon
      exact absurd hcon (by decide)
  have hmem : p ∈ installed ++ packages.filter (fun q => !(installed.contains q)) := by
    by_cases hin : p ∈ installed
    · exact List.mem_append_left _ hin
    · refine List.mem_append_right _ (List.mem_filter.mpr ⟨hp, ?_⟩)
      show (!(installed.contains p)) = true
      have hcf : installed.contains p = false := by
        cases hc : installed.contains p with
        | false => rfl
        | true => exact absurd (containsEqTrueIffMem.mp hc) hin
      rw [hcf]
      rfl
  rw [containsEqTrueIffMem.mpr hmem] at hfalse
  exact Bool.noConfusion hfalse

theorem pipSkipBranch (env : ExecEnv) (s : EngineSt) (cp : String)
    (hr : (pyWords cp).contains "-r" = false)
    (hemp : ((pipPackagesOf cp).filter (fun p => !(s.pipInstalled.contains p))).isEmpty
          = true) :
    handlePipInstall env s cp =
      ({ success := true,
         output := "All packages already installed: " ++
           String.intercalate ", " (pipPackagesOf cp),
         spawnedCommand := false }, s) := by
  have hemp2 : ((extractInstallPackages ["pip", "pip3", "install"] (pyWords cp)).filter
      (fun p => !(s.pipInstalled.contains p))).isEmpty = true := hemp
  simp only [handlePipInstall, hr, Bool.false_eq_true, if_false, hemp2, if_true]
  rfl

theorem pipInstallBranchInstalled (env : ExecEnv) (s : EngineSt) (cp : String)
    (hr : (pyWords cp).contains "-r" = false)
    (hemp : ((pipPackagesOf cp).filter (fun p => !(s.pipInstalled.contains p))).isEmpty
          = false)
    (hsucc : (handlePipInstall env s cp).1.success = true) :
    (handlePipInstall env s cp).2.pipInstalled =
      s.pipInstalled ++ (pipPackagesOf cp).filter (fun p => !(s.pipInstalled.contains p)) := by
  have hemp2 : ((extractInstallPackages ["pip", "pip3", "install"] (pyWords cp)).filter
      (fun p => !(s.pipInstalled.contains p))).isEmpty = false := hemp
  simp only [handlePipInstall, hr, Bool.false_eq_true, if_false, hemp2] at hsucc ⊢
  simp only [hsucc, if_true]
  rfl

theorem pipFailNoUpdate (env : ExecEnv) (s : EngineSt) (cp : String)
    (hr : (pyWords cp).contains "-r" = false) :
    (handlePipInstall env s cp).1.success = false →
    (handlePipInstall env s cp).2.pipInstalled = s.pipInstalled := by
  cases hemp : ((pipPackagesOf cp).filter (fun p => !(s.pipInstalled.contains p))).isEmpty with
  | true =>
    intro _
    rw [pipSkipBranch env s cp hr hemp]
  | false =>
    intro hf
    have hemp2 : ((extractInstallPackages ["pip", "pip3", "install"] (pyWords cp)).filter
        (fun p => !(s.pipInstalled.contains p))).isEmpty = false := hemp
    simp only [handlePipInstall, hr, Bool.false_eq_true, if_false, hemp2] at hf ⊢
    simp only [hf, Bool.false_eq_true, if_false]

theorem pipSecondCall (env : ExecEnv) (s : EngineSt) (cp : String)
    (hr : (pyWords cp).contains "-r" = false)
    (hsucc : (handlePipInstall env s cp).1.success = true) :
    handlePipInstall env (handlePipInstall env s cp).2 cp =
      ({ success := true,
         output := "All packages already installed: " ++
           String.intercalate ", " (pipPackagesOf cp),
         spawnedCommand := false }, (handlePipInstall env s cp).2) := by
  cases hemp : ((pipPackagesOf cp).filter (fun p => !(s.pipInstalled.contains p))).isEmpty with
  | true =>
    have h1 := pipSkipBranch env s cp hr hemp
    rw [h1]
    exact pipSkipBranch env s cp hr hemp
  | false =>
    have hpi := pipInstallBranchInstalled env s cp hr hemp hsucc
    apply pipSkipBranch env _ cp hr
    rw [hpi, List.isEmpty_iff]
    exact filterContainsAppend (pipPackagesOf cp) s.pipInstalled

theorem npmSkipBranch (env : ExecEnv) (s : EngineSt) (cn : String)
    (hg : ((pyWords cn).contains "-g" || (pyWords cn).contains "--global") = false)
    (hemp : ((npmPackagesOf cn).filter (fun p => !(s.npmInstalled.contains p))).isEmpty
          = true) :
    handleNpmInstall env s cn =
      ({ success := true,
         output := "All packages already installed: " ++
           String.intercalate ", " (npmPackagesOf cn),
         spawnedCommand := false }, s) := by
  have hemp2 : ((extractInstallPackages
      ["npm", "yarn",
       if strContains ((pyWords cn).headD "") "yarn" then "add" else "install", "add"]
      (pyWords cn)).filter (fun p => !(s.npmInstalled.contains p))).isEmpty = true := hemp
  simp only [handleNpmInstall, hg, Bool.false_eq_true, if_false, hemp2, if_true]
  rfl

theorem npmInstallBranchInstalled (env : ExecEnv) (s : EngineSt) (cn : String)
    (hg : ((pyWords cn).contains "-g" || (pyWords cn).contains "--global") = false)
    (hemp : ((npmPackagesOf cn).filter (fun p => !(s.npmInstalled.contains p))).isEmpty
          = false)
    (hsucc : (handleNpmInstall env s cn).1.success = true) :
    (handleNpmInstall env s cn).2.npmInstalled =
      s.npmInstalled ++ (npmPackagesOf cn).filter (fun p => !(s.npmInstalled.contains p)) := by
  have hemp2 : ((extractInstallPackages
      ["npm", "yarn",
       if strContains ((pyWords cn).headD "") "yarn" then "add" else "install", "add"]
      (pyWords cn)).filter (fun p => !(s.npmInstalled.contains p))).isEmpty = false := hemp
  simp only [handleNpmInstall, hg, Bool.false_eq_true, if_false, hemp2] at hsucc ⊢
  simp only [hsucc, if_true]
  rfl

theorem npmFailNoUpdate (env : ExecEnv) (s : EngineSt) (cn : String)
    (hg : ((pyWords cn).contains "-g" || (pyWords cn).contains "--global") = false) :
    (handleNpmInstall env s cn).1.success = false →
    (handleNpmInstall env s cn).2.npmInstalled = s.npmInstalled := by
  cases hemp : ((npmPackagesOf cn).filter (fun p => !(s.npmInstalled.contains p))).isEmpty with
  | true =>
    intro _
    rw [npmSkipBranch env s cn hg hemp]
  | false =>
    intro hf
    have hemp2 : ((extractInstallPackages
        ["npm", "yarn",
         if strContains ((pyWords cn).headD "") "yarn" then "add" else "install", "add"]
        (pyWords cn)).filter (fun p => !(s.npmInstalled.contains p))).isEmpty = false := hemp
    simp only [handleNpmInstall, hg, Bool.false_eq_true, if_false, hemp2] at hf ⊢
    simp only [hf, Bool.false_eq_true, if_false]

theorem npmSecondCall (env : ExecEnv) (s : EngineSt) (cn : String)
    (hg : ((pyWords cn).contains "-g" || (pyWords cn).contains "--global") = false)
    (hsucc : (handleNpmInstall env s cn).1.success = true) :
    handleNpmInstall env (handleNpmInstall env s cn).2 cn =
      ({ success := true,
         output := "All packages already installed: " ++
           String.intercalate ", " (npmPackagesOf cn),
         spawnedCommand := false }, (handleNpmInstall env s cn).2) := by
  cases hemp : ((npmPackagesOf cn).filter (fun p => !(s.npmInstalled.contains p))).isEmpty with
  | true =>
    have h1 := npmSkipBranch env s cn hg hemp
    rw [h1]
    exact npmSkipBranch env s cn hg hemp
  | false =>
    have hpi := npmInstallBranchInstalled env s cn hg hemp hsucc
    apply npmSkipBranch env _ cn hg
    rw [hpi, List.isEmpty_iff]
    exact filterContainsAppend (npmPackagesOf cn) s.npmInstalled

theorem startsWithAlreadyInstalled (tail : String) :
    pyStartsWith ("All packages already installed: " ++ tail)
      "All packages already installed" = true := by
  unfold pyStartsWith
  apply isPrefixOfEqTrue.mpr
  rw [strToListAppend]
  exact List.IsPrefix.trans ⟨[':', ' '], by decide⟩ ⟨_, rfl⟩

/-! ## Claims -/

/-- Claim C1, counterexample: on the non-streaming path (`stream_output=False`),
`execute_command` derives success from the classifier alone, so a command whose
process exits with code 1 and clean output still yields `success = True`,
contradicting the claimed iff with the exit code. -/
theorem c1_counterexample :
    (executeCommand envExitOne initialState "true" false false none).1.success = true
    ∧ (envExitOne.run (generalDockerCommand envExitOne initialState "true" none)).1 = 1 := by
  exact ⟨by decide, by decide⟩

/-- Claim C1 (amended): on the general (non-special-cased) foreground path, the
streaming branch computes `success = (returncode == 0) AND (no classifier
match)`, while the non-streaming branch ignores the exit code and computes
`success = (no classifier match)` alone; on both branches a classifier match
forces `success = False` regardless of exit code. -/
theorem c1_success_policy (env : ExecEnv) (s : EngineSt) (cmd : String)
    (so : Bool) (ov : Option String)
    (h1 : pyStartsWith (cleanCommand cmd) "cd " = false)
    (h2 : (pyStartsWith (cleanCommand cmd) "pip install "
           || pyStartsWith (cleanCommand cmd) "pip3 install ") = false)
    (h3 : (pyStartsWith (cleanCommand cmd) "npm install "
           || pyStartsWith (cleanCommand cmd) "yarn add ") = false) :
    ((executeCommand env s cmd true false ov).1.success
      = (((env.run (generalDockerCommand env s cmd ov)).1 == 0)
         && !detectErrorInOutput (env.run (generalDockerCommand env s cmd ov)).2))
    ∧ ((executeCommand env s cmd false false ov).1.success
      = !detectErrorInOutput (env.run (generalDockerCommand env s cmd ov)).2)
    ∧ (detectErrorInOutput (env.run (generalDockerCommand env s cmd ov)).2 = true →
       (executeCommand env s cmd so false ov).1.success = false) := by
  refine ⟨?_, ?_, ?_⟩
  · simp [executeCommand, generalDockerCommand, h1, h2, h3, streamingSuccess]
  · simp [executeCommand, generalDockerCommand, h1, h2, h3, nonStreamingSuccess]
  · intro hdet
    cases so with
    | true =>
      simp only [generalDockerCommand] at hdet
      simp [executeCommand, h1, h2, h3, streamingSuccess, hdet]
    | false =>
      simp only [generalDockerCommand] at hdet
      simp [executeCommand, h1, h2, h3, nonStreamingSuccess, hdet]

/-- Witness for C1 at a concrete input. -/
theorem c1_success_policy_witness :
    (pyStartsWith (cleanCommand "echo hi") "cd " = false
      ∧ (pyStartsWith (cleanCommand "echo hi") "pip install "
         || pyStartsWith (cleanCommand "echo hi") "pip3 install ") = false
      ∧ (pyStartsWith (cleanCommand "echo hi") "npm install "
         || pyStartsWith (cleanCommand "echo hi") "yarn add ") = false)
    ∧ (((executeCommand envExitOne initialState "echo hi" true false none).1.success
      = (((envExitOne.run (generalDockerCommand envExitOne initialState "echo hi" none)).1 == 0)
         && !detectErrorInOutput
              (envExitOne.run (generalDockerCommand envExitOne initialState "echo hi" none)).2))
    ∧ ((executeCommand envExitOne initialState "echo hi" false false none).1.success
      = !detectErrorInOutput
          (envExitOne.run (generalDockerCommand envExitOne initialState "echo hi" none)).2)
    ∧ (detectErrorInOutput
          (envExitOne.run (generalDockerCommand envExitOne initialState "echo hi" none)).2 = true →
       (executeCommand envExitOne initialState "echo hi" true false none).1.success = false)) :=
  ⟨⟨by decide, by decide, by decide⟩,
   c1_success_policy envExitOne initialState "echo hi" true none
     (by decide) (by decide) (by decide)⟩

/-- Claim C2, counterexample: the classifier is not case-insensitive on the
generic prefixes; the casing `eRRor:` is not flagged. -/
theorem c2_counterexample : detectErrorInOutput "eRRor: build broke" = false := by decide

/-- Claim C2 (amended): `_detect_error_in_output` is a pure function returning
true exactly when the output contains at least one keyword of its fixed list as
a substring; the generic `error:`/`exception:` prefixes are matched only in the
three literal casings (all-lower, capitalised, all-upper), so a mixed casing
such as `eRRor:` is not flagged. -/
theorem c2_classifier_characterisation (output : String) :
    (detectErrorInOutput output = true
      ↔ ∃ k, k ∈ errorKeywords ∧ strContains output k = true)
    ∧ detectErrorInOutput "error: v" = true
    ∧ detectErrorInOutput "Error: v" = true
    ∧ detectErrorInOutput "ERROR: v" = true
    ∧ detectErrorInOutput "eRRor: v" = false := by
  refine ⟨?_, by decide, by decide, by decide, by decide⟩
  unfold detectErrorInOutput
  exact List.any_eq_true

/-- Claim C3, counterexample: a `cd` to an absolute target commits the change
and reports success without any existence check, even in an environment where
no directory exists. -/
theorem c3_counterexample :
    (handleCdCommand envNoDirs initialState "cd /nonexistent").1.success = true
    ∧ (handleCdCommand envNoDirs initialState "cd /nonexistent").2.workingDirectory
        = "/nonexistent"
    ∧ envNoDirs.dirExists "/nonexistent" = false := by
  exact ⟨by decide, by decide, by decide⟩

/-- Claim C3 (amended): only for a relative `cd` target (neither `..` nor
absolute) does the handler run the existence check; when the check fails it
returns `success = False` with the specific `Directory not found:` message,
spawns no command process, and leaves the working-directory state unchanged.
Absolute and `..` targets are committed without any check. -/
theorem c3_relative_cd_not_found (env : ExecEnv) (s : EngineSt) (command : String)
    (hdot : ¬ extractCdTarget command = "..")
    (habs : pyStartsWith (extractCdTarget command) "/" = false)
    (hex : env.dirExists (osPathJoin s.workingDirectory (extractCdTarget command)) = false) :
    handleCdCommand env s command =
      ({ success := false,
         output := "Directory not found: " ++
           osPathJoin s.workingDirectory (extractCdTarget command),
         spawnedCommand := false }, s) := by
  simp [handleCdCommand, hdot, habs, hex]

/-- Witness for C3 at a concrete input. -/
theorem c3_relative_cd_not_found_witness :
    ((¬ extractCdTarget "cd sub" = "..")
      ∧ pyStartsWith (extractCdTarget "cd sub") "/" = false
      ∧ envNoDirs.dirExists
          (osPathJoin initialState.workingDirectory (extractCdTarget "cd sub")) = false)
    ∧ handleCdCommand envNoDirs initialState "cd sub" =
        ({ success := false,
           output := "Directory not found: " ++
             osPathJoin initialState.workingDirectory (extractCdTarget "cd sub"),
           spawnedCommand := false }, initialState) :=
  ⟨⟨by decide, by decide, by decide⟩,
   c3_relative_cd_not_found envNoDirs initialState "cd sub" (by decide) (by decide) (by decide)⟩

/-- Claim C4, counterexample: from the working directory `/workspace/` (which
ends in a slash and is reachable, e.g. via `cd /workspace/`), entering the
existing subdirectory `sub` and then `cd ..` yields `/workspace`, not the
original `/workspace/`. -/
theorem c4_counterexample :
    (handleCdCommand envAllDirs
      ((handleCdCommand envAllDirs
        { initialState with workingDirectory := "/workspace/" } "cd sub").2)
      "cd ..").2.workingDirectory = "/workspace"
    ∧ ("/workspace" : String) ≠ "/workspace/" := by
  exact ⟨by decide, by decide⟩

/-- Claim C4 (amended): for every working-directory value that does not end in
a slash (or is the root `/`), and every nonempty, slash-free relative
subdirectory name other than `..` that the existence check accepts, `cd` into
the subdirectory followed by `cd ..` restores the working-directory string
exactly. -/
theorem c4_cd_roundtrip (env : ExecEnv) (s : EngineSt) (t : String)
    (hstrip : pyStrip t = t) (ht0 : t ≠ "") (ht1 : t ≠ "..")
    (hns : t.toList.contains '/' = false)
    (hwd : pyEndsWith s.workingDirectory "/" = false ∨ s.workingDirectory = "/")
    (hex : env.dirExists (osPathJoin s.workingDirectory t) = true) :
    (handleCdCommand env (handleCdCommand env s ("cd " ++ t)).2 "cd ..").2.workingDirectory
      = s.workingDirectory := by
  have htarget : extractCdTarget ("cd " ++ t) = t := by
    unfold extractCdTarget
    rw [show ("cd " ++ t).toList = 'c' :: 'd' :: ' ' :: t.toList from rfl]
    rw [show ('c' :: 'd' :: ' ' :: t.toList).drop 3 = t.toList from rfl]
    rw [strMkToList]
    exact hstrip
  have habs : pyStartsWith t "/" = false :=
    notStartsSlashOfNoSlash (notMemOfContainsFalse hns)
  have h1 : (handleCdCommand env s ("cd " ++ t)).2 =
      { s with workingDirectory := osPathJoin s.workingDirectory t } := by
    simp [handleCdCommand, htarget, ht1, habs, hex]
  rw [h1]
  have h2 : extractCdTarget "cd .." = ".." := by decide
  simp only [handleCdCommand, h2, if_pos rfl]
  exact osPathDirnameJoin s.workingDirectory t hns hwd

/-- Witness for C4 at a concrete input. -/
theorem c4_cd_roundtrip_witness :
    (pyStrip "sub" = "sub" ∧ ("sub" : String) ≠ "" ∧ ("sub" : String) ≠ ".."
      ∧ ("sub" : String).toList.contains '/' = false
      ∧ (pyEndsWith initialState.workingDirectory "/" = false
          ∨ initialState.workingDirectory = "/")
      ∧ envAllDirs.dirExists (osPathJoin initialState.workingDirectory "sub") = true)
    ∧ (handleCdCommand envAllDirs
        (handleCdCommand envAllDirs initialState ("cd " ++ "sub")).2
        "cd ..").2.workingDirectory = initialState.workingDirectory :=
  ⟨⟨by decide, by decide, by decide, by decide, Or.inl (by decide), by decide⟩,
   c4_cd_roundtrip envAllDirs initialState "sub" (by decide) (by decide) (by decide)
     (by decide) (Or.inl (by decide)) (by decide)⟩

/-- Claim C5, counterexample: the working-directory state is also written by
the `working_dir` override of `execute_command` during a non-`cd` command, and
the written value need not be an absolute path. -/
theorem c5_counterexample :
    (executeCommand envNoDirs initialState "echo hi" true false
        (some "rel")).2.workingDirectory = "rel"
    ∧ pyStartsWith "rel" "/" = false := by
  exact ⟨by decide, by decide⟩

/-- Claim C5 (amended): the working-directory state is written by
directory-change handling and additionally by the `working_dir` overrides of
`execute_command` / `execute_interactive_command`; provided every override in a
sequence of engine operations is absent, empty, or a non-empty absolute path,
the state always remains a non-empty absolute path string, and a non-`cd`
command without an override leaves it unchanged. -/
theorem c5_wd_invariant (env : ExecEnv) (s : EngineSt) (ops : List EngineOp)
    (cmd : String) (so bg : Bool)
    (hs : absolutePath s.workingDirectory)
    (hops : ∀ op ∈ ops, opOk op)
    (hcd : pyStartsWith (cleanCommand cmd) "cd " = false) :
    absolutePath (runOps env s ops).workingDirectory
    ∧ (executeCommand env s cmd so bg none).2.workingDirectory = s.workingDirectory :=
  ⟨runOps_wd_abs env ops s hs hops, executeCommand_wd_eq env s cmd so bg hcd⟩

/-- Witness for C5 at a concrete input. -/
theorem c5_wd_invariant_witness :
    (absolutePath initialState.workingDirectory
      ∧ (∀ op ∈ [EngineOp.exec "cd /tmp" true false none], opOk op)
      ∧ pyStartsWith (cleanCommand "echo hi") "cd " = false)
    ∧ (absolutePath
        (runOps envAllDirs initialState
          [EngineOp.exec "cd /tmp" true false none]).workingDirectory
      ∧ (executeCommand envAllDirs initialState "echo hi" true false
          none).2.workingDirectory = initialState.workingDirectory) :=
  ⟨⟨⟨by decide, by decide⟩,
    by
      intro op hop
      rw [List.mem_singleton] at hop
      subst hop
      trivial,
    by decide⟩,
   c5_wd_invariant envAllDirs initialState [EngineOp.exec "cd /tmp" true false none]
     "echo hi" true false ⟨by decide, by decide⟩
     (by
       intro op hop
       rw [List.mem_singleton] at hop
       subst hop
       trivial)
     (by decide)⟩

/-- Claim C6, counterexample: a completed `cd` command appends to the command
history but not to the output history, so the two histories are not
index-aligned after every completed call. -/
theorem c6_counterexample :
    (executeCommand envNoDirs initialState "cd .." true false none).2.commandHistory.length = 1
    ∧ (executeCommand envNoDirs initialState "cd .." true false none).2.outputHistory.length
        = 0 := by
  exact ⟨by decide, by decide⟩

/-- Claim C6 (amended): both histories are append-only (the engine never
truncates them): every operation extends them, every `execute_command` call
appends exactly its command to the command history, and on the general
(non-special-cased) foreground path the produced output is appended to the
output history; only special-cased paths (`cd`, deduplicated installs,
background starts) append no output entry. -/
theorem c6_history_discipline (env : ExecEnv) (s : EngineSt) (cmd : String)
    (so : Bool) (ov : Option String)
    (h1 : pyStartsWith (cleanCommand cmd) "cd " = false)
    (h2 : (pyStartsWith (cleanCommand cmd) "pip install "
           || pyStartsWith (cleanCommand cmd) "pip3 install ") = false)
    (h3 : (pyStartsWith (cleanCommand cmd) "npm install "
           || pyStartsWith (cleanCommand cmd) "yarn add ") = false) :
    (∀ op : EngineOp, s.commandHistory <+: (engineStep env s op).commandHistory
        ∧ s.outputHistory <+: (engineStep env s op).outputHistory)
    ∧ (∀ (c : String) (so2 bg : Bool) (ov2 : Option String),
        (executeCommand env s c so2 bg ov2).2.commandHistory = s.commandHistory ++ [c])
    ∧ (executeCommand env s cmd so false ov).2.outputHistory
        = s.outputHistory ++ [(env.run (generalDockerCommand env s cmd ov)).2] := by
  refine ⟨?_, ?_, ?_⟩
  · intro op
    cases op with
    | exec c so2 bg ov2 =>
      constructor
      · show s.commandHistory <+: (executeCommand env s c so2 bg ov2).2.commandHistory
        rw [executeCommand_cmdHist]
        exact ⟨[c], rfl⟩
      · show s.outputHistory <+: (executeCommand env s c so2 bg ov2).2.outputHistory
        exact executeCommand_outHist env s c so2 bg ov2
    | interact c ins ov2 =>
      constructor
      · show s.commandHistory <+: (executeInteractiveCommand env s c ins ov2).2.commandHistory
        have hc : (executeInteractiveCommand env s c ins ov2).2.commandHistory
            = s.commandHistory ++ [c] := by
          simp only [executeInteractiveCommand]
          exact congrArg (· ++ [c]) (applyOverride_cmdHist s ov2)
        rw [hc]
        exact ⟨[c], rfl⟩
      · show s.outputHistory <+: (executeInteractiveCommand env s c ins ov2).2.outputHistory
        simp only [executeInteractiveCommand, applyOverride_outHist]
        exact ⟨_, rfl⟩
  · intro c so2 bg ov2
    exact executeCommand_cmdHist env s c so2 bg ov2
  · cases so with
    | true =>
      simp [executeCommand, generalDockerCommand, h1, h2, h3, applyOverride_outHist]
    | false =>
      simp [executeCommand, generalDockerCommand, h1, h2, h3, applyOverride_outHist]

/-- Witness for C6 at a concrete input. -/
theorem c6_history_discipline_witness :
    (pyStartsWith (cleanCommand "echo hi") "cd " = false
      ∧ (pyStartsWith (cleanCommand "echo hi") "pip install "
         || pyStartsWith (cleanCommand "echo hi") "pip3 install ") = false
      ∧ (pyStartsWith (cleanCommand "echo hi") "npm install "
         || pyStartsWith (cleanCommand "echo hi") "yarn add ") = false)
    ∧ ((∀ op : EngineOp,
          initialState.commandHistory <+:
            (engineStep envExitOne initialState op).commandHistory
          ∧ initialState.outputHistory <+:
            (engineStep envExitOne initialState op).outputHistory)
      ∧ (∀ (c : String) (so2 bg : Bool) (ov2 : Option String),
          (executeCommand envExitOne initialState c so2 bg ov2).2.commandHistory
            = initialState.commandHistory ++ [c])
      ∧ (executeCommand envExitOne initialState "echo hi" true false none).2.outputHistory
          = initialState.outputHistory ++
            [(envExitOne.run
                (generalDockerCommand envExitOne initialState "echo hi" none)).2]) :=
  ⟨⟨by decide, by decide, by decide⟩,
   c6_history_discipline envExitOne initialState "echo hi" true none
     (by decide) (by decide) (by decide)⟩

/-- Claim C7: package-install deduplication is idempotent.  The installed set
is extended only after a successful install; and after a successful pip or npm
install of a command's packages, re-issuing the same command finds no new
packages, spawns no process, returns success with the already-installed
message, and leaves the state unchanged. -/
theorem c7_install_dedup_idempotent (env : ExecEnv) (s : EngineSt) (cp cn : String)
    (hr : (pyWords cp).contains "-r" = false)
    (hg : ((pyWords cn).contains "-g" || (pyWords cn).contains "--global") = false) :
    ((handlePipInstall env s cp).1.success = false →
        (handlePipInstall env s cp).2.pipInstalled = s.pipInstalled)
    ∧ ((handlePipInstall env s cp).1.success = true →
        (handlePipInstall env (handlePipInstall env s cp).2 cp).1.success = true
        ∧ (handlePipInstall env (handlePipInstall env s cp).2 cp).1.spawnedCommand = false
        ∧ pyStartsWith (handlePipInstall env (handlePipInstall env s cp).2 cp).1.output
            "All packages already installed" = true
        ∧ (handlePipInstall env (handlePipInstall env s cp).2 cp).2
            = (handlePipInstall env s cp).2)
    ∧ ((handleNpmInstall env s cn).1.success = false →
        (handleNpmInstall env s cn).2.npmInstalled = s.npmInstalled)
    ∧ ((handleNpmInstall env s cn).1.success = true →
        (handleNpmInstall env (handleNpmInstall env s cn).2 cn).1.success = true
        ∧ (handleNpmInstall env (handleNpmInstall env s cn).2 cn).1.spawnedCommand = false
        ∧ pyStartsWith (handleNpmInstall env (handleNpmInstall env s cn).2 cn).1.output
            "All packages already installed" = true
        ∧ (handleNpmInstall env (handleNpmInstall env s cn).2 cn).2
            = (handleNpmInstall env s cn).2) := by
  refine ⟨pipFailNoUpdate env s cp hr, ?_, npmFailNoUpdate env s cn hg, ?_⟩
  · intro hsucc
    have hsec := pipSecondCall env s cp hr hsucc
    refine ⟨by rw [hsec], by rw [hsec], ?_, by rw [hsec]⟩
    rw [hsec]
    exact startsWithAlreadyInstalled _
  · intro hsucc
    have hsec := npmSecondCall env s cn hg hsucc
    refine ⟨by rw [hsec], by rw [hsec], ?_, by rw [hsec]⟩
    rw [hsec]
    exact startsWithAlreadyInstalled _

/-- Witness for C7 at a concrete input. -/
theorem c7_install_dedup_idempotent_witness :
    ((pyWords "pip install requests").contains "-r" = false
      ∧ ((pyWords "npm install lodash").contains "-g"
         || (pyWords "npm install lodash").contains "--global") = false)
    ∧ (((handlePipInstall envNoDirs initialState "pip install requests").1.success = false →
        (handlePipInstall envNoDirs initialState "pip install requests").2.pipInstalled
          = initialState.pipInstalled)
      ∧ ((handlePipInstall envNoDirs initialState "pip install requests").1.success = true →
        (handlePipInstall envNoDirs
            (handlePipInstall envNoDirs initialState "pip install requests").2
            "pip install requests").1.success = true
        ∧ (handlePipInstall envNoDirs
            (handlePipInstall envNoDirs initialState "pip install requests").2
            "pip install requests").1.spawnedCommand = false
        ∧ pyStartsWith (handlePipInstall envNoDirs
            (handlePipInstall envNoDirs initialState "pip install requests").2
            "pip install requests").1.output "All packages already installed" = true
        ∧ (handlePipInstall envNoDirs
            (handlePipInstall envNoDirs initialState "pip install requests").2
            "pip install requests").2
          = (handlePipInstall envNoDirs initialState "pip install requests").2)
      ∧ ((handleNpmInstall envNoDirs initialState "npm install lodash").1.success = false →
        (handleNpmInstall envNoDirs initialState "npm install lodash").2.npmInstalled
          = initialState.npmInstalled)
      ∧ ((handleNpmInstall envNoDirs initialState "npm install lodash").1.success = true →
        (handleNpmInstall envNoDirs
            (handleNpmInstall envNoDirs initialState "npm install lodash").2
            "npm install lodash").1.success = true
        ∧ (handleNpmInstall envNoDirs
            (handleNpmInstall envNoDirs initialState "npm install lodash").2
            "npm install lodash").1.spawnedCommand = false
        ∧ pyStartsWith (handleNpmInstall envNoDirs
            (handleNpmInstall envNoDirs initialState "npm install lodash").2
            "npm install lodash").1.output "All packages already installed" = true
        ∧ (handleNpmInstall envNoDirs
            (handleNpmInstall envNoDirs initialState "npm install lodash").2
            "npm install lodash").2
          = (handleNpmInstall envNoDirs initialState "npm install lodash").2)) :=
  ⟨⟨by decide, by decide⟩,
   c7_install_dedup_idempotent envNoDirs initialState "pip install requests"
     "npm install lodash" (by decide) (by decide)⟩

/-- Claim C8, counterexample: the foreground timeout handler performs only
`process.terminate()` followed by an unbounded `await process.wait()`; there is
no force-kill action, so the claimed bounded force-kill path does not exist. -/
theorem c8_counterexample : ProcAction.kill ∉ timeoutTerminationActions := by decide

/-- Claim C8 (amended): on a foreground timeout the engine returns
`success = False` with the timeout annotation followed by the output captured
so far, removes the process record from the registry, and terminates the child
only gracefully (`terminate` then an unbounded `wait`; no force-kill within a
grace window, so the return is not bounded if the child ignores the signal). -/
theorem c8_timeout_result (reg : Registry) (pid : String) (timeLimit : Nat)
    (r : ProcRecord) (h : lookupProc reg pid = some r) :
    handleForegroundTimeout reg pid timeLimit =
      ((false, "Command timed out after " ++ toString timeLimit ++ " seconds\n" ++
          String.join r.outputChunks), removeProc reg pid)
    ∧ lookupProc (removeProc reg pid) pid = none
    ∧ timeoutTerminationActions = [ProcAction.terminate, ProcAction.waitForExit] := by
  refine ⟨?_, lookupProc_removeProc reg pid, rfl⟩
  simp only [handleForegroundTimeout, h]

/-- Witness for C8 at a concrete input. -/
theorem c8_timeout_result_witness :
    (lookupProc [("p1", ⟨"sleep 5", false, 1, ["partial"]⟩)] "p1"
      = some ⟨"sleep 5", false, 1, ["partial"]⟩)
    ∧ (handleForegroundTimeout [("p1", ⟨"sleep 5", false, 1, ["partial"]⟩)] "p1" 1 =
        ((false, "Command timed out after " ++ toString 1 ++ " seconds\n" ++
            String.join ["partial"]),
         removeProc [("p1", ⟨"sleep 5", false, 1, ["partial"]⟩)] "p1")
      ∧ lookupProc (removeProc [("p1", ⟨"sleep 5", false, 1, ["partial"]⟩)] "p1") "p1" = none
      ∧ timeoutTerminationActions = [ProcAction.terminate, ProcAction.waitForExit]) :=
  ⟨by decide,
   c8_timeout_result [("p1", ⟨"sleep 5", false, 1, ["partial"]⟩)] "p1" 1
     ⟨"sleep 5", false, 1, ["partial"]⟩ (by decide)⟩

/-- The registry behaviour of the background branch of
`_execute_with_streaming` and of `_monitor_background_process`: starting a
background process registers the record and returns `(True, message-with-pid)`,
and the monitor removes the identifier on every terminal outcome. -/
theorem backgroundRegistrySupport (reg : Registry) (pid dockerCommand : String)
    (timeLimit : Nat) :
    (startBackgroundProcess reg pid dockerCommand timeLimit).1.1 = true
    ∧ strContains (startBackgroundProcess reg pid dockerCommand timeLimit).1.2 pid = true
    ∧ lookupProc (startBackgroundProcess reg pid dockerCommand timeLimit).2 pid =
        some { command := dockerCommand, background := true, timeLimit := timeLimit,
               outputChunks := [] }
    ∧ (∀ (reg2 : Registry) (outcome : MonitorOutcome),
        lookupProc (monitorBackgroundProcess reg2 pid outcome).2 pid = none) := by
  refine ⟨rfl, strContainsAppendSelf "Started background process " pid, ?_, ?_⟩
  · show lookupProc ((pid, _) :: removeProc reg pid) pid = some _
    unfold lookupProc
    rw [List.find?_cons_of_pos _ (by simp)]
    rfl
  · intro reg2 outcome
    unfold monitorBackgroundProcess
    cases hl : lookupProc reg2 pid with
    | none => exact hl
    | some r2 => exact lookupProc_removeProc reg2 pid

/-- Claim C9, counterexample: a special-cased command ignores the background
flag entirely; `execute("cd ..", background=True)` returns the directory-change
result, whose message does not contain the fresh process identifier (and no
record is ever created for it). -/
theorem c9_counterexample :
    (executeCommand envNoDirs initialState "cd .." true true none).1.output
      = "Changed directory to /"
    ∧ strContains (executeCommand envNoDirs initialState "cd .." true true none).1.output
        envNoDirs.freshPid = false := by
  exact ⟨by decide, by decide⟩

/-- Claim C9 (amended): only a command that reaches the background branch of
the Process Supervisor (a non-special-cased command with streaming and
`background=True`) returns immediately with `success = True` and a message
containing the new process identifier; that identifier is registered in the
running-process registry before the call returns and is removed on every
terminal outcome (completion, timeout, or monitoring error).  Special-cased
commands (`cd`, package installs) ignore the background flag. -/
theorem c9_background_scoped (env : ExecEnv) (s : EngineSt) (cmd : String)
    (ov : Option String) (reg : Registry) (pid dockerCommand : String)
    (timeLimit : Nat)
    (h1 : pyStartsWith (cleanCommand cmd) "cd " = false)
    (h2 : (pyStartsWith (cleanCommand cmd) "pip install "
           || pyStartsWith (cleanCommand cmd) "pip3 install ") = false)
    (h3 : (pyStartsWith (cleanCommand cmd) "npm install "
           || pyStartsWith (cleanCommand cmd) "yarn add ") = false) :
    (executeCommand env s cmd true true ov).1.success = true
    ∧ (executeCommand env s cmd true true ov).1.output
        = "Started background process " ++ env.freshPid
    ∧ strContains (executeCommand env s cmd true true ov).1.output env.freshPid = true
    ∧ (startBackgroundProcess reg pid dockerCommand timeLimit).1.1 = true
    ∧ strContains (startBackgroundProcess reg pid dockerCommand timeLimit).1.2 pid = true
    ∧ lookupProc (startBackgroundProcess reg pid dockerCommand timeLimit).2 pid =
        some { command := dockerCommand, background := true, timeLimit := timeLimit,
               outputChunks := [] }
    ∧ (∀ (reg2 : Registry) (outcome : MonitorOutcome),
        lookupProc (monitorBackgroundProcess reg2 pid outcome).2 pid = none) := by
  have hreg := backgroundRegistrySupport reg pid dockerCommand timeLimit
  have hout : (executeCommand env s cmd true true ov).1.output
      = "Started background process " ++ env.freshPid := by
    simp [executeCommand, h1, h2, h3]
  refine ⟨?_, hout, ?_, hreg.1, hreg.2.1, hreg.2.2.1, hreg.2.2.2⟩
  · simp [executeCommand, h1, h2, h3]
  · rw [hout]
    exact strContainsAppendSelf _ _

/-- Witness for C9 at a concrete input. -/
theorem c9_background_scoped_witness :
    (pyStartsWith (cleanCommand "sleep 99") "cd " = false
      ∧ (pyStartsWith (cleanCommand "sleep 99") "pip install "
         || pyStartsWith (cleanCommand "sleep 99") "pip3 install ") = false
      ∧ (pyStartsWith (cleanCommand "sleep 99") "npm install "
         || pyStartsWith (cleanCommand "sleep 99") "yarn add ") = false)
    ∧ ((executeCommand envNoDirs initialState "sleep 99" true true none).1.success = true
      ∧ (executeCommand envNoDirs initialState "sleep 99" true true none).1.output
          = "Started background process " ++ envNoDirs.freshPid
      ∧ strContains (executeCommand envNoDirs initialState "sleep 99" true true
          none).1.output envNoDirs.freshPid = true
      ∧ (startBackgroundProcess [] "p1" "docker exec sleep 99" 300).1.1 = true
      ∧ strContains (startBackgroundProcess [] "p1" "docker exec sleep 99" 300).1.2 "p1"
          = true
      ∧ lookupProc (startBackgroundProcess [] "p1" "docker exec sleep 99" 300).2 "p1" =
          some { command := "docker exec sleep 99", background := true, timeLimit := 300,
                 outputChunks := [] }
      ∧ (∀ (reg2 : Registry) (outcome : MonitorOutcome),
          lookupProc (monitorBackgroundProcess reg2 "p1" outcome).2 "p1" = none)) :=
  ⟨⟨by decide, by decide, by decide⟩,
   c9_background_scoped envNoDirs initialState "sleep 99" none [] "p1"
     "docker exec sleep 99" 300 (by decide) (by decide) (by decide)⟩

/-- Claim C10: in pip and npm install handling, a package name immediately
following a flag token is consumed as the flag's value and excluded from the
extracted list; when every requested package is excluded this way the install
is skipped entirely and returns success with the `All packages already
installed` message, with nothing installed or tracked. -/
theorem c10_flag_value_consumed (skips : List String) (f v : String)
    (rest : List String)
    (hf : pyStartsWith f "-" = true) (hv : pyStartsWith v "-" = false)
    (hfs : skips.contains f = false) (env : ExecEnv) (s : EngineSt) :
    extractInstallPackages skips (f :: v :: rest) = extractInstallPackages skips rest
    ∧ pipPackagesOf "pip install -U requests" = []
    ∧ handlePipInstall env s "pip install -U requests" =
        ({ success := true, output := "All packages already installed: ",
           spawnedCommand := false }, s)
    ∧ handleNpmInstall env s "npm install -D lodash" =
        ({ success := true, output := "All packages already installed: ",
           spawnedCommand := false }, s) := by
  refine ⟨?_, by decide, ?_, ?_⟩
  · simp only [extractInstallPackages, hfs, Bool.false_eq_true, if_false, hf, if_true, hv]
  · have hp := pipSkipBranch env s "pip install -U requests" (by decide)
      (by
        rw [show pipPackagesOf "pip install -U requests" = [] from by decide]
        rfl)
    rw [hp]
    rw [show pipPackagesOf "pip install -U requests" = [] from by decide]
    rfl
  · have hn := npmSkipBranch env s "npm install -D lodash" (by decide)
      (by
        rw [show npmPackagesOf "npm install -D lodash" = [] from by decide]
        rfl)
    rw [hn]
    rw [show npmPackagesOf "npm install -D lodash" = [] from by decide]
    rfl

/-- Witness for C10 at a concrete input. -/
theorem c10_flag_value_consumed_witness :
    (pyStartsWith "-U" "-" = true ∧ pyStartsWith "requests" "-" = false
      ∧ (["pip", "pip3", "install"] : List String).contains "-U" = false)
    ∧ (extractInstallPackages ["pip", "pip3", "install"] ["-U", "requests"]
        = extractInstallPackages ["pip", "pip3", "install"] []
      ∧ pipPackagesOf "pip install -U requests" = []
      ∧ handlePipInstall envNoDirs initialState "pip install -U requests" =
          ({ success := true, output := "All packages already installed: ",
             spawnedCommand := false }, initialState)
      ∧ handleNpmInstall envNoDirs initialState "npm install -D lodash" =
          ({ success := true, output := "All packages already installed: ",
             spawnedCommand := false }, initialState)) :=
  ⟨⟨by decide, by decide, by decide⟩,
   c10_flag_value_consumed ["pip", "pip3", "install"] "-U" "requests" []
     (by decide) (by decide) (by decide) envNoDirs initialState⟩

end TerminalManager
